/-
Verification of the jimmy installation-script generator.

This file shallowly embeds the two Rust source files of the repository
(src/data.rs and src/install.rs) as executable Lean definitions, and proves
properties of the embedded program.

Embedding conventions:
* Rust `String` becomes Lean `String`; the machine integers used as
  partition indices become `Nat` (the indices involved are tiny, no
  overflow behaviour is relevant to any property proved here).
* Rust `Option<T>` becomes `Option T`.
* Rust panics (`panic!`, `.expect(..)`, `.unwrap()`, out-of-bounds slice
  access) are modelled as `Except.error` carrying the panic message;
  functions that can panic return `Except String _`.
* `Vec::sort` on the list of disk names is modelled by a structural
  insertion sort.  The sorted result of a list of strings is uniquely
  determined by sortedness plus permutation (duplicate elements are
  identical strings, so stability cannot be observed), hence any correct
  sort is an exact model; sortedness and permutation of the model are
  proved below (`sort_le_pairwise`, `sort_le_perm`).
* The regex `/dev/nvme\d+n\d+` (an unanchored search, `Regex::is_match`)
  is modelled by the explicit matcher `nvme_is_match`; `\d` is modelled as
  an ASCII digit.  A declarative characterisation `NvmeShape` of the
  language of the pattern is given, and the matcher is proved equivalent
  to it (`nvme_is_match_iff`).
* The regex `\d+$` used with `Regex::find` returns, when it matches, the
  maximal trailing run of digits of the string; `trailing_digits` computes
  exactly that, and the empty string when there is no match, matching the
  `.unwrap_or("")` in the source.
* Rust `str::starts_with` is modelled by `str_starts_with`, a prefix test
  on the character lists.
-/
import Mathlib

namespace Jimmy

/-! ## String ordering (model of Rust `Ord for String`, byte-lexicographic) -/

/-- Lexicographic less-or-equal on character lists, comparing scalar
values.  UTF-8 byte order coincides with scalar-value order, so this is
Rust `Ord` on `String`. -/
def char_list_le : List Char → List Char → Bool
  | [], _ => true
  | _ :: _, [] => false
  | a :: as, b :: bs =>
    if a.toNat < b.toNat then true
    else if b.toNat < a.toNat then false
    else char_list_le as bs

/-- Byte-lexicographic less-or-equal on strings. -/
def str_le (a b : String) : Bool := char_list_le a.data b.data

/-- Insert an element into a sorted list (helper of the `Vec::sort` model). -/
def insert_le (a : String) : List String → List String
  | [] => [a]
  | b :: l => if str_le b a then b :: insert_le a l else a :: b :: l

/-- Model of `Vec::sort` on a list of strings: insertion sort by `str_le`. -/
def sort_le : List String → List String
  | [] => []
  | a :: l => insert_le a (sort_le l)

/-- Model of `Vec::dedup`: remove consecutive repeated elements. -/
def dedup_adj : List String → List String
  | [] => []
  | [a] => [a]
  | a :: b :: l => if a = b then dedup_adj (b :: l) else a :: dedup_adj (b :: l)

/-! ## String helpers modelling the regex and `str` operations used -/

/-- `leads_with ps cs` returns `some rest` iff `cs = ps ++ rest`
(prefix test that also yields the remainder). -/
def leads_with : List Char → List Char → Option (List Char)
  | [], cs => some cs
  | _ :: _, [] => none
  | p :: ps, c :: cs => if c = p then leads_with ps cs else none

/-- Model of `str::starts_with`. -/
def str_starts_with (s pat : String) : Bool := (leads_with pat.data s.data).isSome

/-- Attempt to match the regex `/dev/nvme\d+n\d+` at the head of `cs`.
Since a digit is never `n`, the greedy `\d+` needs no backtracking: the
maximal digit run must be followed by `n` and then at least one digit. -/
def match_nvme_at (cs : List Char) : Bool :=
  match leads_with "/dev/nvme".data cs with
  | none => false
  | some rest =>
    let ds := rest.takeWhile Char.isDigit
    let rest2 := rest.dropWhile Char.isDigit
    if ds.isEmpty then false
    else
      match rest2 with
      | y :: rest3 => (y == 'n') && !(rest3.takeWhile Char.isDigit).isEmpty
      | [] => false

/-- Unanchored search for the regex `/dev/nvme\d+n\d+`: try to match at
every position. -/
def nvme_search : List Char → Bool
  | [] => match_nvme_at []
  | c :: cs => match_nvme_at (c :: cs) || nvme_search cs

/-- Model of `Regex::new(r"/dev/nvme\d+n\d+").is_match(s)`. -/
def nvme_is_match (s : String) : Bool := nvme_search s.data

/-- Model of `Regex::new(r"\d+$").find(s)` followed by `.unwrap_or("")`:
the maximal trailing run of ASCII digits (empty if the regex has no
match). -/
def trailing_digits (s : String) : String :=
  String.mk ((s.data.reverse.takeWhile Char.isDigit).reverse)

/-! ## Data model (src/data.rs) -/

/-- Only the Latest or the LTS kernel can be installed. -/
inductive Kernel
  | Latest
  | Lts
deriving DecidableEq, Repr

/-- Struct that contains the minimum needed to create a partition on disk. -/
structure Partition where
  format : String
  disk : String
  size : String
  mount : String
deriving DecidableEq, Repr

/-- Struct that contains the minimum needed to create an user. -/
structure User where
  name : String
  groups : List String
  shell : String
deriving DecidableEq, Repr

/-- Struct that contains the minimum needed to create a functioning Arch
installation. -/
structure InstallOptions where
  hostname : String
  region : String
  city : String
  locales : List String
  kernel : Kernel
  extra : String
  bootloader : String
  partitions : List Partition
  users : List User
deriving DecidableEq, Repr

/-- Potentially valid partition options: every field optional. -/
structure ParsedPartition where
  format : Option String
  disk : Option String
  size : Option String
  mount : Option String
deriving DecidableEq, Repr

/-! ## Partition methods (src/install.rs, `impl Partition`) -/

/-- `Partition::fdisk_partition_type`: the `fdisk` partition type used for
the given format. -/
def fdisk_partition_type (p : Partition) : String :=
  match p.format with
  | "fat32" => "uefi"
  | "swap" => "swap"
  | _ => "linux"

/-- `Partition::fdisk_script_string`: the string `echo`ed into `fdisk` to
create this partition (the `\n` sequences are literal backslash-n, as in
the Rust raw string). -/
def fdisk_script_string (p : Partition) (number : Nat) : String :=
  "n\\n" ++ Nat.repr number ++ "\\n\\n" ++
  (if p.size = "" then "" else "+" ++ p.size) ++
  "\\nt" ++
  (if number = 1 then "" else "\\n" ++ Nat.repr number) ++
  "\\n" ++ fdisk_partition_type p ++ "\\n"

/-- Resolved device path of partition `num` (1-based) of `disk`; this is
the value wrapped in `Some` by `Partition::get_partition_file`. -/
def dev_path (disk : String) (num : Nat) : String :=
  if nvme_is_match disk then disk ++ "p" ++ Nat.repr num
  else disk ++ Nat.repr num

/-- `Partition::get_partition_file`: path to the partition file
(e.g. `/dev/sda1` if provided `0`, for the 0th partition). -/
def get_partition_file (p : Partition) (number : Nat) : Option String :=
  some (dev_path p.disk (number + 1))

/-- Command name chosen by the `match` in `Partition::mkfs_cmd` (empty
string when the format is not recognised). -/
def mkfs_cmd_name (format : String) : String :=
  match format with
  | "ext2" => "mkfs.ext2"
  | "ext3" => "mkfs.ext3"
  | "ext4" => "mkfs.ext4"
  | "fat32" => "mkfs.fat -F 32"
  | "swap" => "mkswap"
  | _ => ""

/-- `Partition::mkfs_cmd`: the `mkfs` command formatting this partition,
or `None` if the format was not recognised.  The source unwraps
`get_partition_file`, which is always `Some` (theorem `c10_no_panic`);
`dev_path p.disk (number+1)` is that unwrapped value. -/
def mkfs_cmd (p : Partition) (number : Nat) : Option String :=
  if mkfs_cmd_name p.format = "" then none
  else some (mkfs_cmd_name p.format ++ " " ++ dev_path p.disk (number + 1))

/-- Panic-tracking version of `mkfs_cmd`: the `.unwrap()` on the result of
`get_partition_file` is modelled as a match whose `none` branch is the
panic. -/
def mkfs_cmdE (p : Partition) (number : Nat) : Except String (Option String) :=
  if mkfs_cmd_name p.format = "" then .ok none
  else
    match get_partition_file p number with
    | none => .error "called unwrap on a None value"
    | some f => .ok (some (mkfs_cmd_name p.format ++ " " ++ f))

/-- `Partition::mount_cmd`: a shell command mounting the partition.  As in
`mkfs_cmd`, the unwrapped `get_partition_file` value is
`dev_path p.disk (number+1)`. -/
def mount_cmd (p : Partition) (number : Nat) : Option String :=
  if p.format = "swap" then
    some ("swapon " ++ dev_path p.disk (number + 1))
  else if p.mount = "" then none
  else
    some ("mkdir -p /mnt" ++ p.mount ++ " && mount " ++
      dev_path p.disk (number + 1) ++ " /mnt" ++ p.mount)

/-- Panic-tracking version of `mount_cmd`. -/
def mount_cmdE (p : Partition) (number : Nat) : Except String (Option String) :=
  if p.format = "swap" then
    match get_partition_file p number with
    | none => .error "called unwrap on a None value"
    | some f => .ok (some ("swapon " ++ f))
  else if p.mount = "" then .ok none
  else
    match get_partition_file p number with
    | none => .error "called unwrap on a None value"
    | some f => .ok (some ("mkdir -p /mnt" ++ p.mount ++ " && mount " ++ f ++ " /mnt" ++ p.mount))

/-! ## InstallOptions methods (src/install.rs, `impl InstallOptions`) -/

/-- `InstallOptions::unique_disks_used`: all disks of the configuration,
sorted and deduplicated. -/
def unique_disks_used (o : InstallOptions) : List String :=
  dedup_adj (sort_le (o.partitions.map (fun p => p.disk)))

/-- `InstallOptions::partitions_on_disk`: all partitions on the given
disk, in original list order. -/
def partitions_on_disk (o : InstallOptions) (disk : String) : List Partition :=
  o.partitions.filter (fun x => x.disk == disk)

/-- Model of `partitions.enumerate().map(|(idx, p)| (p, apply(p, idx)))`
starting the index at `i0`. -/
def number_from (apply : Partition → Nat → Option String) :
    List Partition → Nat → List (Partition × Option String)
  | [], _ => []
  | p :: ps, i => (p, apply p i) :: number_from apply ps (i + 1)

/-- `InstallOptions::map_partitions`: map `apply` over all partitions,
associated with their disks, numbering the partitions of each disk from 0
in original list order. -/
def map_partitions (o : InstallOptions) (apply : Partition → Nat → Option String) :
    List (Partition × Option String) :=
  (unique_disks_used o).flatMap (fun disk => number_from apply (partitions_on_disk o disk) 0)

/-- `map_snd`: second components of the pairs that are `Some`. -/
def map_snd {α β : Type} (tuples : List (α × Option β)) : List β :=
  tuples.filterMap (fun f => f.2)

/-- The `while` loop of `InstallOptions::fdisk_cmds`: concatenate the
fdisk fragments of the partitions, numbering from `i` upwards. -/
def fdisk_frags : List Partition → Nat → String
  | [], _ => ""
  | p :: ps, i => fdisk_script_string p i ++ fdisk_frags ps (i + 1)

/-- `InstallOptions::fdisk_cmds`: the shell commands creating the
partitions with `fdisk`, one per disk, fragments numbered from 1. -/
def fdisk_cmds (o : InstallOptions) : List String :=
  (unique_disks_used o).map (fun disk =>
    "echo -e \"g\\n" ++ fdisk_frags (partitions_on_disk o disk) 1 ++
      "\\nw\" | fdisk " ++ disk ++ " &>/dev/null")

/-- `InstallOptions::packages`: the packages installed with `pacstrap`. -/
def packages (o : InstallOptions) : List String :=
  [ "base",
    (match o.kernel with
     | Kernel.Latest => "linux"
     | Kernel.Lts => "linux-lts"),
    "linux-firmware",
    o.extra,
    (if o.bootloader ≠ "efistub" then o.bootloader else ""),
    "efibootmgr",
    "networkmanager" ]

/-- `InstallOptions::locales_cmd`: the `sed` command uncommenting every
requested locale and the command writing `LANG=` with the first locale.
Indexing `self.locales[0]` panics on an empty list, modelled as an
error. -/
def locales_cmd (o : InstallOptions) : Except String (List String) :=
  let fst := ["sed "] ++
    o.locales.map (fun l => "    --expression \x27s/^#" ++ l ++ "$/" ++ l ++ "/\x27 ") ++
    ["    --in-place /etc/locale.gen"]
  match o.locales with
  | [] => .error "index out of bounds: the len is 0 but the index is 0"
  | x :: _ =>
    .ok [String.intercalate "\\\n" fst,
         "echo \x27LANG=" ++ x ++ "\x27 >/etc/locale.conf"]

/-- Model of `Iterator::position`. -/
def position_idx {α : Type} (p : α → Bool) : List α → Option Nat
  | [] => none
  | a :: l => if p a then some 0 else (position_idx p l).map (· + 1)

/-- Index selected by `generate_shellscript` for the root partition:
`ps.iter().position(|(p,_)| p.mount == "/").unwrap_or(0)`. -/
def root_part_ind (ps : List (Partition × Option String)) : Nat :=
  (position_idx (fun pr => pr.1.mount == "/") ps).getD 0

/-- Model of `slice::swap`: panics (error) when an index is out of
bounds. -/
def vec_swapE {α : Type} (l : List α) (i j : Nat) : Except String (List α) :=
  match l.get? i, l.get? j with
  | some a, some b => .ok ((l.set i b).set j a)
  | _, _ => .error "index out of bounds"

/-- The mount block of `generate_shellscript`: map `mount_cmd` over the
partitions, swap the root partition to the front, keep the `Some`
fragments. -/
def mount_sectionE (o : InstallOptions) : Except String (List String) :=
  let ps := map_partitions o mount_cmd
  match vec_swapE ps 0 (root_part_ind ps) with
  | .error e => .error e
  | .ok ps2 => .ok (map_snd ps2)

/-- `echo_status`: prepend an echo of the message to the commands. -/
def echo_status (msg cmds : String) : String :=
  "echo \x27" ++ msg ++ "\x27\n" ++ cmds

/-- `InstallOptions::local_hostname_cmd`. -/
def local_hostname_cmd (o : InstallOptions) : String :=
  "cat <<END_ETC_HOSTS >/etc/hosts\n" ++
  String.intercalate "\n"
    ["127.0.0.1\tlocalhost", "::1\tlocalhost", "127.0.1.1\t" ++ o.hostname] ++
  "\nEND_ETC_HOSTS"

/-- `InstallOptions::configure_networkmanager`. -/
def configure_networkmanager : List String :=
  ["systemctl enable --now systemd-resolved",
   "systemctl enable NetworkManager.service"]

/-- The `lts` suffix string selected in the `efistub` branch of
`install_bootloader`. -/
def lts_str (k : Kernel) : String :=
  match k with
  | Kernel.Lts => "-lts"
  | _ => ""

/-- The single `efibootmgr` invocation emitted by the `efistub` branch,
with the six interpolated arguments of the Rust `format!` in order. -/
def efiboot_cmd (disk part label lts root lts2 : String) : String :=
  "efibootmgr --disk " ++ disk ++ " --part " ++ part ++
  " --create --label \"Arch Linux" ++ label ++
  "\" --loader /vmlinuz-linux" ++ lts ++
  " --unicode \x27root=" ++ root ++ " rw initrd=\\initramfs-linux" ++ lts2 ++
  ".img\x27 --verbose"

/-- `InstallOptions::install_bootloader`: commands setting up the chosen
bootloader.  The two `.expect(..)` calls and the final `panic!` are
errors; the two `.unwrap()` calls on resolved device paths are the final
match (never taken, see `c10_no_panic`). -/
def install_bootloader (o : InstallOptions) : Except String (List String) :=
  if o.bootloader = "grub" then
    .ok ["grub-install --target=x86_64-efi --bootloader-id=GRUB --recheck",
         "grub-mkconfig -o /boot/grub/grub.cfg"]
  else if o.bootloader = "efistub" then
    let lts := lts_str o.kernel
    let pad := map_partitions o get_partition_file
    match pad.find? (fun pr => pr.1.mount == "/boot" || pr.1.mount == "/efi") with
    | none => .error "using efistub, but no boot partition was detected"
    | some bp =>
      match pad.find? (fun pr => pr.1.mount == "/") with
      | none => .error "using efistub, but no root partition was detected"
      | some rp =>
        match bp.2, rp.2 with
        | some bfile, some rfile =>
          .ok [efiboot_cmd bp.1.disk (trailing_digits bfile)
                (if lts = "-lts" then " LTS" else "") lts rfile lts]
        | _, _ => .error "called unwrap on a None value"
  else .error "invalid bootloader"

/-- `InstallOptions::chroot_script`: the script ran inside the arch-chroot
session.  Panics of `locales_cmd` and `install_bootloader` propagate. -/
def chroot_scriptE (o : InstallOptions) : Except String String :=
  match locales_cmd o with
  | .error e => .error e
  | .ok lc =>
    match install_bootloader o with
    | .error e => .error e
    | .ok ib =>
      .ok (String.intercalate "\n\n"
        [ "#!/bin/sh\n# arch-chroot script automatically generated by jimmy-rs",
          echo_status "<chroot> setting timezone..."
            ("ln -sf /usr/share/zoneinfo/" ++ o.region ++ "/" ++ o.city ++
             " /etc/localtime\nhwclock --systohc"),
          echo_status "<chroot> configuring locales on target system..."
            (String.intercalate "\n" lc ++ "\nlocale-gen"),
          echo_status "<chroot> setting hostname..."
            ("echo \x27" ++ o.hostname ++ "\x27 >/etc/hostname\n" ++
             local_hostname_cmd o),
          echo_status "<chroot> configuring networkmanager..."
            (String.intercalate "\n" configure_networkmanager),
          echo_status "<chroot> set password for root user (repeats until success):"
            "while true; do if passwd; then break; fi; done",
          echo_status "<chroot> setting up bootloader..."
            (String.intercalate "\n" ib),
          echo_status "<chroot> exiting..." "exit" ] ++ "\n")

/-- `InstallOptions::generate_shellscript`: the script that applies the
settings and installs the system.  The swap in the mount block and the
panics inside `chroot_script` propagate as errors, in source evaluation
order (the mount block is built before the chroot script). -/
def generate_shellscriptE (o : InstallOptions) : Except String String :=
  match mount_sectionE o with
  | .error e => .error e
  | .ok mounts =>
    match chroot_scriptE o with
    | .error e => .error e
    | .ok cs =>
      .ok (String.intercalate "\n\n"
        [ "#!/bin/sh\n# arch-chroot script automatically generated by jimmy-rs",
          echo_status "<-> synchronizing time with the internet..."
            "timedatectl set-ntp true",
          echo_status "<-> creating partitions using fdisk..."
            (String.intercalate "\n" (fdisk_cmds o)),
          echo_status "<-> formatting partitions..."
            (String.intercalate "\n" (map_snd (map_partitions o mkfs_cmd))),
          echo_status "<-> mounting partitions..."
            (String.intercalate "\n" mounts),
          "pacstrap /mnt " ++ String.intercalate " " (packages o),
          echo_status "<-> generating the filesystem table..."
            "genfstab -U /mnt >> /mnt/etc/fstab",
          echo_status "<-> creating the arch-chroot script..."
            ("cat <<END_OF_SECOND_SCRIPT > /mnt/jimmy_part2.sh\n" ++ cs ++
             "END_OF_SECOND_SCRIPT\nchmod +x /mnt/jimmy_part2.sh"),
          echo_status "<-> running arch-chroot script..."
            "arch-chroot /mnt ./jimmy_part2.sh",
          echo_status "<-> cleanup: removing arch-chroot script..."
            "rm -f /mnt/jimmy_part2.sh",
          echo_status "<-> cleanup: unmounting all filesystems on /mnt..."
            "umount -R /mnt",
          "echo -e \x27\\n<-> done; you may reboot now" ] ++ "\n")

/-! ## Validation (src/data.rs, the `From` conversions) -/

/-- Warning emitted when a partition has no format. -/
def format_warn_msg : String :=
  "warning: partition format not specified; defaulting to \x27ext4\x27"

/-- Warning emitted when a partition has no mount point. -/
def mount_warn_msg : String :=
  "warning: partition mount not specified; it\x27s not going to be mounted"

/-- The format-defaulting step of `From<ParsedPartition>`: the resolved
format string together with the warning printed, if any. -/
def format_from (rawf : Option String) : String × List String :=
  match rawf with
  | none => ("ext4", [format_warn_msg])
  | some f => if f = "" then ("ext4", [format_warn_msg]) else (f, [])

/-- `From<ParsedPartition> for Partition`, returning the converted
partition together with the warnings printed, or the panic message.  The
checks run in source order: format default, mount check (warning for
absent/empty, panic for a relative path), then the `disk` expect. -/
def partition_fromE (raw : ParsedPartition) : Except String (Partition × List String) :=
  let fw : String × List String := format_from raw.format
  let mw : Except String (List String) :=
    match raw.mount with
    | none => .ok [mount_warn_msg]
    | some m =>
      if m = "" then .ok [mount_warn_msg]
      else if str_starts_with m "/" then .ok []
      else .error ("mount point is a relative path: \"" ++ m ++ "\"")
  match mw with
  | .error e => .error e
  | .ok w2 =>
    match raw.disk with
    | none => .error "error: partition disk not specified"
    | some d =>
      .ok ({ format := fw.1, disk := d, size := raw.size.getD "",
             mount := raw.mount.getD "" }, fw.2 ++ w2)

/-- Warning emitted when the locales list is absent or empty. -/
def locales_warn_msg : String :=
  "warning: locales not specified; defaulting to \x27en_US.UTF-8\x27"

/-- Resolution of the `locales` field in
`From<ParsedInstallOptions> for InstallOptions`: the resulting list
together with the warnings printed. -/
def locales_from (raw : Option (List String)) : List String × List String :=
  match raw with
  | some [] => (["en_US.UTF-8"], [locales_warn_msg])
  | some (x :: xs) => (x :: xs, [])
  | none => (["en_US.UTF-8"], [locales_warn_msg])

/-! ## Declarative characterisation of the NVMe pattern -/

/-- Membership in the language of an unanchored search for
`/dev/nvme\d+n\d+`: some position starts with `/dev/nvme`, then one or
more digits, then `n`, then at least one digit. -/
def NvmeShape (cs : List Char) : Prop :=
  ∃ a d1 c r, cs = a ++ "/dev/nvme".data ++ d1 ++ 'n' :: c :: r ∧
    d1 ≠ [] ∧ (∀ x ∈ d1, x.isDigit = true) ∧ c.isDigit = true

/-! ## Lemmas about the string order and the sort/dedup model -/

theorem char_list_le_total : ∀ as bs, (char_list_le as bs || char_list_le bs as) = true := by
  intro as
  induction as with
  | nil => intro bs; cases bs <;> simp [char_list_le]
  | cons a as ih =>
    intro bs
    cases bs with
    | nil => simp [char_list_le]
    | cons b bs =>
      simp only [char_list_le]
      by_cases h1 : a.toNat < b.toNat
      · simp [h1]
      · by_cases h2 : b.toNat < a.toNat
        · simp [h1, h2]
        · simp [h1, h2, ih bs]

theorem char_list_le_trans :
    ∀ as bs cs, char_list_le as bs = true → char_list_le bs cs = true →
      char_list_le as cs = true := by
  intro as
  induction as with
  | nil => intro bs cs _ _; simp [char_list_le]
  | cons a as ih =>
    intro bs cs hab hbc
    cases bs with
    | nil => simp [char_list_le] at hab
    | cons b bs =>
      cases cs with
      | nil => simp [char_list_le] at hbc
      | cons c cs =>
        simp only [char_list_le] at hab hbc ⊢
        by_cases h1 : a.toNat < b.toNat
        · by_cases h3 : b.toNat < c.toNat
          · simp [show a.toNat < c.toNat by omega]
          · by_cases h4 : c.toNat < b.toNat
            · simp [h3, h4] at hbc
            · simp [show a.toNat < c.toNat by omega]
        · by_cases h2 : b.toNat < a.toNat
          · simp [h1, h2] at hab
          · by_cases h3 : b.toNat < c.toNat
            · simp [show a.toNat < c.toNat by omega]
            · by_cases h4 : c.toNat < b.toNat
              · simp [h3, h4] at hbc
              · simp [h1, h2] at hab
                simp [h3, h4] at hbc
                simp [show ¬ a.toNat < c.toNat by omega,
                      show ¬ c.toNat < a.toNat by omega]
                exact ih bs cs hab hbc

theorem char_list_le_antisymm :
    ∀ as bs, char_list_le as bs = true → char_list_le bs as = true → as = bs := by
  intro as
  induction as with
  | nil =>
    intro bs _ hba
    cases bs with
    | nil => rfl
    | cons b bs => simp [char_list_le] at hba
  | cons a as ih =>
    intro bs hab hba
    cases bs with
    | nil => simp [char_list_le] at hab
    | cons b bs =>
      simp only [char_list_le] at hab hba
      by_cases h1 : a.toNat < b.toNat
      · by_cases h2 : b.toNat < a.toNat
        · exfalso; omega
        · simp [h1, h2] at hba
      · by_cases h2 : b.toNat < a.toNat
        · simp [h1, h2] at hab
        · simp [h1, h2] at hab hba
          have hn : a.toNat = b.toNat := by omega
          have hchar : a = b := Char.ext (UInt32.toNat.inj hn)
          rw [hchar, ih bs hab hba]

theorem str_le_total (a b : String) : (str_le a b || str_le b a) = true :=
  char_list_le_total a.data b.data

theorem str_le_trans {a b c : String} (h1 : str_le a b = true) (h2 : str_le b c = true) :
    str_le a c = true :=
  char_list_le_trans a.data b.data c.data h1 h2

theorem str_le_antisymm {a b : String} (h1 : str_le a b = true) (h2 : str_le b a = true) :
    a = b := by
  have h := char_list_le_antisymm a.data b.data h1 h2
  cases a with
  | mk da =>
    cases b with
    | mk db =>
      exact congrArg String.mk h

theorem mem_insert_le {x a : String} : ∀ {l : List String},
    x ∈ insert_le a l ↔ x = a ∨ x ∈ l := by
  intro l
  induction l with
  | nil => simp [insert_le]
  | cons b l ih =>
    simp only [insert_le]
    by_cases h : str_le b a
    · simp only [h, if_pos]
      simp [ih, List.mem_cons]
      tauto
    · simp only [h, if_neg, Bool.false_eq_true, not_false_iff]
      simp [List.mem_cons]

theorem mem_sort_le {x : String} : ∀ {l : List String}, x ∈ sort_le l ↔ x ∈ l := by
  intro l
  induction l with
  | nil => simp [sort_le]
  | cons a l ih => simp [sort_le, mem_insert_le, ih]

theorem insert_le_pairwise {a : String} : ∀ {l : List String},
    l.Pairwise (fun x y => str_le x y = true) →
    (insert_le a l).Pairwise (fun x y => str_le x y = true) := by
  intro l
  induction l with
  | nil => intro _; simp [insert_le]
  | cons b l ih =>
    intro h
    rw [List.pairwise_cons] at h
    simp only [insert_le]
    by_cases hba : str_le b a
    · simp only [hba, if_pos]
      rw [List.pairwise_cons]
      constructor
      · intro y hy
        rcases mem_insert_le.mp hy with rfl | hy2
        · exact hba
        · exact h.1 y hy2
      · exact ih h.2
    · simp only [hba, if_neg, Bool.false_eq_true, not_false_iff]
      have hab : str_le a b = true := by
        have := str_le_total b a
        rcases Bool.or_eq_true_iff.mp this with h' | h'
        · exact absurd h' hba
        · exact h'
      rw [List.pairwise_cons]
      constructor
      · intro y hy
        rcases List.mem_cons.mp hy with rfl | hy2
        · exact hab
        · exact str_le_trans hab (h.1 y hy2)
      · rw [List.pairwise_cons]
        exact ⟨h.1, h.2⟩

theorem sort_le_pairwise : ∀ (l : List String),
    (sort_le l).Pairwise (fun x y => str_le x y = true) := by
  intro l
  induction l with
  | nil => simp [sort_le]
  | cons a l ih => exact insert_le_pairwise ih

theorem insert_le_perm (a : String) : ∀ (l : List String), (insert_le a l).Perm (a :: l) := by
  intro l
  induction l with
  | nil => simp [insert_le]
  | cons b l ih =>
    simp only [insert_le]
    by_cases h : str_le b a
    · simp only [h, if_pos]
      exact (ih.cons b).trans (List.Perm.swap a b l)
    · simp [h]

theorem sort_le_perm : ∀ (l : List String), (sort_le l).Perm l := by
  intro l
  induction l with
  | nil => simp [sort_le]
  | cons a l ih => exact (insert_le_perm a (sort_le l)).trans (ih.cons a)

theorem dedup_adj_sublist : ∀ (l : List String), List.Sublist (dedup_adj l) l := by
  intro l
  induction l with
  | nil => simp [dedup_adj]
  | cons a l ih =>
    cases l with
    | nil => simp [dedup_adj]
    | cons b l2 =>
      simp only [dedup_adj]
      by_cases h : a = b
      · subst h
        rw [if_pos rfl]
        exact ih.cons a
      · rw [if_neg h]
        exact ih.cons₂ a

theorem mem_dedup_adj {x : String} : ∀ {l : List String}, x ∈ dedup_adj l ↔ x ∈ l := by
  intro l
  induction l with
  | nil => simp [dedup_adj]
  | cons a l ih =>
    cases l with
    | nil => simp [dedup_adj]
    | cons b l2 =>
      simp only [dedup_adj]
      by_cases h : a = b
      · subst h
        rw [if_pos rfl, ih]
        simp [List.mem_cons]
      · rw [if_neg h]
        simp [List.mem_cons, ih]

theorem head?_dedup_adj : ∀ (l : List String) (a : String),
    (dedup_adj (a :: l)).head? = some a := by
  intro l
  induction l with
  | nil => intro a; simp [dedup_adj]
  | cons b l2 ih =>
    intro a
    simp only [dedup_adj]
    by_cases h : a = b
    · subst h
      simp only [if_pos rfl]
      exact ih a
    · simp [h]

theorem dedup_adj_chain : ∀ (l : List String),
    List.Chain' (fun x y => x ≠ y) (dedup_adj l) := by
  intro l
  induction l with
  | nil => simp [dedup_adj]
  | cons a l ih =>
    cases l with
    | nil => simp [dedup_adj]
    | cons b l2 =>
      simp only [dedup_adj]
      by_cases h : a = b
      · simpa [h] using ih
      · simp only [h, if_neg, not_false_iff]
        rw [List.chain'_cons']
        refine ⟨?_, ih⟩
        intro y hy
        rw [head?_dedup_adj l2 b] at hy
        cases hy
        exact h

theorem pairwise_chain_nodup : ∀ (l : List String),
    l.Pairwise (fun x y => str_le x y = true) →
    List.Chain' (fun x y => x ≠ y) l → l.Nodup := by
  intro l
  induction l with
  | nil => intro _ _; simp
  | cons a t ih =>
    intro hp hc
    rw [List.pairwise_cons] at hp
    rw [List.nodup_cons]
    refine ⟨?_, ih hp.2 hc.tail⟩
    intro hmem
    cases t with
    | nil => simp at hmem
    | cons b t' =>
      rcases List.mem_cons.mp hmem with rfl | hmem'
      · exact (List.chain'_cons.mp hc).1 rfl
      · have hab : str_le a b = true := hp.1 b (List.mem_cons_self b t')
        have hba : str_le b a = true := (List.pairwise_cons.mp hp.2).1 a hmem'
        exact (List.chain'_cons.mp hc).1 (str_le_antisymm hab hba)

theorem unique_disks_nodup (o : InstallOptions) : (unique_disks_used o).Nodup := by
  apply pairwise_chain_nodup
  · exact (sort_le_pairwise _).sublist (dedup_adj_sublist _)
  · exact dedup_adj_chain _

theorem mem_unique_disks {o : InstallOptions} {d : String} :
    d ∈ unique_disks_used o ↔ d ∈ o.partitions.map (fun p => p.disk) := by
  unfold unique_disks_used
  rw [mem_dedup_adj, mem_sort_le]

/-! ## Lemmas about partition numbering and `map_partitions` -/

theorem number_from_eq (apply : Partition → Nat → Option String) :
    ∀ (ps : List Partition) (i0 : Nat),
      number_from apply ps i0 =
        (ps.zip (List.range' i0 ps.length)).map (fun pn => (pn.1, apply pn.1 pn.2)) := by
  intro ps
  induction ps with
  | nil => intro i0; simp [number_from]
  | cons p ps ih =>
    intro i0
    simp [number_from, List.range'_succ, ih (i0 + 1)]

theorem mem_number_from {apply : Partition → Nat → Option String} :
    ∀ {ps : List Partition} {i0 : Nat} {pr : Partition × Option String},
      pr ∈ number_from apply ps i0 → pr.1 ∈ ps ∧ ∃ i, pr.2 = apply pr.1 i := by
  intro ps
  induction ps with
  | nil => intro i0 pr h; simp [number_from] at h
  | cons p ps ih =>
    intro i0 pr h
    simp only [number_from, List.mem_cons] at h
    rcases h with rfl | h
    · exact ⟨List.mem_cons_self _ _, ⟨i0, rfl⟩⟩
    · obtain ⟨h1, h2⟩ := ih h
      exact ⟨List.mem_cons_of_mem _ h1, h2⟩

theorem number_from_mem_intro {apply : Partition → Nat → Option String} {p : Partition} :
    ∀ {ps : List Partition}, p ∈ ps → ∀ (i0 : Nat),
      ∃ i, (p, apply p i) ∈ number_from apply ps i0 := by
  intro ps
  induction ps with
  | nil => intro h; simp at h
  | cons q ps ih =>
    intro h i0
    rcases List.mem_cons.mp h with rfl | h2
    · exact ⟨i0, List.mem_cons_self _ _⟩
    · obtain ⟨i, hi⟩ := ih h2 (i0 + 1)
      exact ⟨i, List.mem_cons_of_mem _ hi⟩

theorem mem_map_partitions {o : InstallOptions} {apply : Partition → Nat → Option String}
    {pr : Partition × Option String} (h : pr ∈ map_partitions o apply) :
    pr.1 ∈ o.partitions ∧ ∃ i, pr.2 = apply pr.1 i := by
  unfold map_partitions at h
  rw [List.mem_flatMap] at h
  obtain ⟨d, _, hpr⟩ := h
  obtain ⟨h1, h2⟩ := mem_number_from hpr
  unfold partitions_on_disk at h1
  exact ⟨(List.mem_filter.mp h1).1, h2⟩

theorem map_partitions_mem_intro {o : InstallOptions} {apply : Partition → Nat → Option String}
    {p : Partition} (h : p ∈ o.partitions) :
    ∃ i, (p, apply p i) ∈ map_partitions o apply := by
  have hd : p.disk ∈ unique_disks_used o := by
    rw [mem_unique_disks]
    exact List.mem_map_of_mem _ h
  have hp : p ∈ partitions_on_disk o p.disk := by
    simp [partitions_on_disk, List.mem_filter, h]
  obtain ⟨i, hi⟩ := number_from_mem_intro hp 0
  refine ⟨i, ?_⟩
  unfold map_partitions
  rw [List.mem_flatMap]
  exact ⟨p.disk, hd, hi⟩

theorem map_partitions_snd_some {o : InstallOptions} {pr : Partition × Option String}
    (h : pr ∈ map_partitions o get_partition_file) :
    ∃ f, pr.2 = some f := by
  obtain ⟨-, i, hi⟩ := mem_map_partitions h
  exact ⟨dev_path pr.1.disk (i + 1), by rw [hi]; rfl⟩

theorem filter_flatMap_nodup (blocks : String → List (Partition × Option String)) (d : String) :
    ∀ (ds : List String), ds.Nodup → d ∈ ds →
      (∀ d' pr, d' ∈ ds → pr ∈ blocks d' → pr.1.disk = d') →
      (ds.flatMap blocks).filter (fun pr => pr.1.disk == d) = blocks d := by
  intro ds
  induction ds with
  | nil => intro _ h; simp at h
  | cons e ds ih =>
    intro hnd hd hpure
    rw [List.flatMap_cons, List.filter_append]
    rcases List.mem_cons.mp hd with rfl | hd2
    · have h1 : (blocks d).filter (fun pr => pr.1.disk == d) = blocks d := by
        rw [List.filter_eq_self]
        intro pr hpr
        rw [beq_iff_eq]
        exact hpure d pr (List.mem_cons_self _ _) hpr
      have h2 : (ds.flatMap blocks).filter (fun pr => pr.1.disk == d) = [] := by
        rw [List.filter_eq_nil_iff]
        intro pr hpr
        rw [List.mem_flatMap] at hpr
        obtain ⟨d', hd', hprd⟩ := hpr
        have hdisk : pr.1.disk = d' := hpure d' pr (List.mem_cons_of_mem _ hd') hprd
        have hne : d' ≠ d := by
          intro he; subst he
          exact (List.nodup_cons.mp hnd).1 hd'
        simp [hdisk, hne]
      rw [h1, h2, List.append_nil]
    · have hne : e ≠ d := by
        intro he; subst he
        exact (List.nodup_cons.mp hnd).1 hd2
      have h1 : (blocks e).filter (fun pr => pr.1.disk == d) = [] := by
        rw [List.filter_eq_nil_iff]
        intro pr hpr
        have hdisk : pr.1.disk = e := hpure e pr (List.mem_cons_self _ _) hpr
        simp [hdisk, hne]
      rw [h1, List.nil_append]
      exact ih (List.nodup_cons.mp hnd).2 hd2
        (fun d' pr hd' hpr => hpure d' pr (List.mem_cons_of_mem _ hd') hpr)

theorem map_partitions_filter_disk (o : InstallOptions)
    (apply : Partition → Nat → Option String) (d : String)
    (hd : d ∈ unique_disks_used o) :
    (map_partitions o apply).filter (fun pr => pr.1.disk == d) =
      number_from apply (partitions_on_disk o d) 0 := by
  unfold map_partitions
  apply filter_flatMap_nodup _ _ _ (unique_disks_nodup o) hd
  intro d' pr _ hpr
  have h1 := (mem_number_from hpr).1
  unfold partitions_on_disk at h1
  exact beq_iff_eq.mp (List.mem_filter.mp h1).2

/-! ## Lemmas about `position`, `find?`, `get?`/`set` and the swap -/

theorem position_idx_spec {α : Type} (p : α → Bool) :
    ∀ (l : List α) (k : Nat), position_idx p l = some k →
      ∃ x, l.get? k = some x ∧ p x = true := by
  intro l
  induction l with
  | nil => intro k h; simp [position_idx] at h
  | cons a l ih =>
    intro k h
    simp only [position_idx] at h
    by_cases hp : p a
    · rw [if_pos hp] at h
      cases h
      exact ⟨a, rfl, hp⟩
    · rw [if_neg hp, Option.map_eq_some'] at h
      obtain ⟨k', hk', rfl⟩ := h
      obtain ⟨x, hx, hpx⟩ := ih k' hk'
      exact ⟨x, by simpa using hx, hpx⟩

theorem position_idx_none {α : Type} (p : α → Bool) :
    ∀ (l : List α), position_idx p l = none ↔ ∀ x ∈ l, p x = false := by
  intro l
  induction l with
  | nil => simp [position_idx]
  | cons a l ih =>
    simp only [position_idx]
    by_cases hp : p a
    · rw [if_pos hp]
      simp [hp]
    · rw [if_neg hp]
      simp only [Option.map_eq_none', ih, List.mem_cons]
      constructor
      · intro h x hx
        rcases hx with rfl | hx2
        · simpa using hp
        · exact h x hx2
      · intro h x hx
        exact h x (Or.inr hx)

theorem find?_some_of_exists {α : Type} {p : α → Bool} {l : List α}
    (h : ∃ x ∈ l, p x = true) : ∃ y, l.find? p = some y := by
  cases hf : l.find? p with
  | some y => exact ⟨y, rfl⟩
  | none =>
    obtain ⟨x, hx, hpx⟩ := h
    rw [List.find?_eq_none] at hf
    exact absurd hpx (by simpa using hf x hx)

theorem get?_lt {α : Type} {l : List α} {k : Nat} {x : α}
    (h : l.get? k = some x) : k < l.length := by
  by_contra hk
  rw [List.get?_eq_none.mpr (Nat.le_of_not_lt hk)] at h
  cases h

theorem get?_set_self {α : Type} (l : List α) (i : Nat) (a : α) (h : i < l.length) :
    (l.set i a).get? i = some a := by
  simp [List.get?_eq_getElem?, List.getElem?_set_self', List.getElem?_eq_getElem h]

theorem get?_set_other {α : Type} (l : List α) (i j : Nat) (a : α) (h : i ≠ j) :
    (l.set i a).get? j = l.get? j := by
  simp [List.get?_eq_getElem?, List.getElem?_set_ne h]

theorem vec_swapE_ok {α : Type} {l : List α} {i j : Nat} {a b : α}
    (hi : l.get? i = some a) (hj : l.get? j = some b) :
    vec_swapE l i j = .ok ((l.set i b).set j a) := by
  unfold vec_swapE
  rw [hi, hj]

theorem swap_get_front {α : Type} {l : List α} {k : Nat} {a0 ak : α}
    (h0 : l.get? 0 = some a0) (hk : l.get? k = some ak) :
    ((l.set 0 ak).set k a0).get? 0 = some ak := by
  by_cases hk0 : k = 0
  · subst hk0
    rw [h0] at hk
    cases hk
    have h1 : (0 : Nat) < l.length := get?_lt h0
    rw [get?_set_self]
    simpa using h1
  · rw [get?_set_other _ k 0 _ (fun he => hk0 he)]
    exact get?_set_self _ 0 ak (get?_lt h0)

theorem swap_get_at {α : Type} {l : List α} {k : Nat} {a0 ak : α}
    (_h0 : l.get? 0 = some a0) (hk : l.get? k = some ak) :
    ((l.set 0 ak).set k a0).get? k = some a0 := by
  have hkl : k < l.length := get?_lt hk
  rw [get?_set_self]
  simpa using hkl

theorem map_snd_cons_some {α β : Type} (a : α) (f : β) (t : List (α × Option β)) :
    map_snd ((a, some f) :: t) = f :: map_snd t := by
  simp [map_snd, List.filterMap_cons]

theorem generate_error_of_bootloader_error {o : InstallOptions} {e : String}
    (h : install_bootloader o = .error e) :
    ∃ e', generate_shellscriptE o = .error e' := by
  unfold generate_shellscriptE
  cases hm : mount_sectionE o with
  | error em => exact ⟨em, rfl⟩
  | ok mounts =>
    unfold chroot_scriptE
    cases hl : locales_cmd o with
    | error el => exact ⟨el, rfl⟩
    | ok lc =>
      rw [h]
      exact ⟨e, rfl⟩

/-! ## Correctness of the NVMe regex matcher -/

theorem leads_with_iff : ∀ (ps cs rest : List Char),
    leads_with ps cs = some rest ↔ cs = ps ++ rest := by
  intro ps
  induction ps with
  | nil => intro cs rest; simp [leads_with]
  | cons p ps ih =>
    intro cs rest
    cases cs with
    | nil => simp [leads_with]
    | cons c cs =>
      simp only [leads_with]
      by_cases h : c = p
      · subst h
        rw [if_pos rfl]
        simp [ih cs rest]
      · rw [if_neg h]
        simp [List.cons.injEq, h]

theorem takeWhile_all_append (p : Char → Bool) :
    ∀ (l1 : List Char) (x : Char) (l2 : List Char),
      (∀ a ∈ l1, p a = true) → p x = false →
      (l1 ++ x :: l2).takeWhile p = l1 ∧ (l1 ++ x :: l2).dropWhile p = x :: l2 := by
  intro l1
  induction l1 with
  | nil =>
    intro x l2 _ hx
    simp [List.takeWhile_cons, List.dropWhile_cons, hx]
  | cons a l1 ih =>
    intro x l2 hall hx
    have ha : p a = true := hall a (List.mem_cons_self _ _)
    have ih2 := ih x l2 (fun b hb => hall b (List.mem_cons_of_mem _ hb)) hx
    simp [List.takeWhile_cons, List.dropWhile_cons, ha, ih2.1, ih2.2]

theorem takeWhile_isEmpty_eq_false (p : Char → Bool) (l : List Char) :
    (l.takeWhile p).isEmpty = false ↔ ∃ c t, l = c :: t ∧ p c = true := by
  cases l with
  | nil => simp
  | cons c t =>
    simp only [List.takeWhile_cons]
    by_cases h : p c
    · rw [if_pos h]
      constructor
      · intro _; exact ⟨c, t, rfl, h⟩
      · intro _; rfl
    · rw [if_neg h]
      constructor
      · intro hfalse; cases hfalse
      · rintro ⟨c', t', heq, hpc⟩
        cases heq
        exact absurd hpc h

theorem match_nvme_at_iff (cs : List Char) :
    match_nvme_at cs = true ↔
      ∃ d1 c r, cs = "/dev/nvme".data ++ d1 ++ 'n' :: c :: r ∧
        d1 ≠ [] ∧ (∀ x ∈ d1, x.isDigit = true) ∧ c.isDigit = true := by
  constructor
  · intro h
    unfold match_nvme_at at h
    cases hlw : leads_with "/dev/nvme".data cs with
    | none => rw [hlw] at h; cases h
    | some rest =>
      rw [hlw] at h
      simp only at h
      by_cases hds : (rest.takeWhile Char.isDigit).isEmpty
      · rw [if_pos hds] at h; cases h
      · rw [if_neg hds] at h
        cases hdw : rest.dropWhile Char.isDigit with
        | nil => rw [hdw] at h; cases h
        | cons y rest3 =>
          rw [hdw] at h
          simp only [Bool.and_eq_true, beq_iff_eq, Bool.not_eq_true'] at h
          obtain ⟨rfl, h3⟩ := h
          obtain ⟨c, t, rfl, hc⟩ := (takeWhile_isEmpty_eq_false Char.isDigit rest3).mp h3
          refine ⟨rest.takeWhile Char.isDigit, c, t, ?_, ?_, ?_, hc⟩
          · have hsplit := List.takeWhile_append_dropWhile Char.isDigit rest
            rw [hdw] at hsplit
            have hcs := (leads_with_iff _ _ _).mp hlw
            rw [← hsplit] at hcs
            exact hcs
          · intro he
            rw [he] at hds
            exact hds rfl
          · intro x hx
            exact List.mem_takeWhile_imp hx
  · rintro ⟨d1, c, r, rfl, hne, hdig, hc⟩
    unfold match_nvme_at
    have hlw : leads_with "/dev/nvme".data
        ("/dev/nvme".data ++ d1 ++ 'n' :: c :: r) = some (d1 ++ 'n' :: c :: r) := by
      rw [leads_with_iff, List.append_assoc]
    rw [hlw]
    have hsplit := takeWhile_all_append Char.isDigit d1 'n' (c :: r) hdig (by decide)
    simp only [hsplit.1, hsplit.2]
    have hne2 : d1.isEmpty = false := by
      cases d1 with
      | nil => exact absurd rfl hne
      | cons a t => rfl
    rw [if_neg (by rw [hne2]; exact Bool.false_ne_true)]
    simp [List.takeWhile_cons, hc]

theorem nvme_search_iff : ∀ (cs : List Char), nvme_search cs = true ↔ NvmeShape cs := by
  intro cs
  induction cs with
  | nil =>
    constructor
    · intro h; cases h
    · rintro ⟨a, d1, c, r, heq, -, -, -⟩
      have hlen := congrArg List.length heq
      simp [List.length_append] at hlen
      omega
  | cons x cs ih =>
    simp only [nvme_search, Bool.or_eq_true]
    constructor
    · intro h
      rcases h with h | h
      · obtain ⟨d1, c, r, heq, hne, hdig, hc⟩ := (match_nvme_at_iff (x :: cs)).mp h
        exact ⟨[], d1, c, r, by simpa using heq, hne, hdig, hc⟩
      · obtain ⟨a, d1, c, r, heq, hne, hdig, hc⟩ := ih.mp h
        exact ⟨x :: a, d1, c, r, by simp [heq], hne, hdig, hc⟩
    · rintro ⟨a, d1, c, r, heq, hne, hdig, hc⟩
      cases a with
      | nil =>
        left
        rw [match_nvme_at_iff]
        exact ⟨d1, c, r, by simpa using heq, hne, hdig, hc⟩
      | cons y a' =>
        right
        rw [ih]
        simp only [List.cons_append, List.cons.injEq] at heq
        exact ⟨a', d1, c, r, heq.2, hne, hdig, hc⟩

theorem nvme_is_match_iff (s : String) : nvme_is_match s = true ↔ NvmeShape s.data :=
  nvme_search_iff s.data

/-! ## Range-shift and fdisk-fragment lemmas -/

/-- Concatenation of a list of strings (spec-side helper used to state the
fdisk-block structure). -/
def str_concat : List String → String
  | [] => ""
  | s :: l => s ++ str_concat l

theorem zip_range_shift {γ : Type} (f : Partition → Nat → γ) :
    ∀ (ps : List Partition) (i0 : Nat),
      (ps.zip (List.range' i0 ps.length)).map (fun pn => f pn.1 (pn.2 + 1)) =
        (ps.zip (List.range' (i0 + 1) ps.length)).map (fun pn => f pn.1 pn.2) := by
  intro ps
  induction ps with
  | nil => intro i0; simp
  | cons p ps ih =>
    intro i0
    simp [List.range'_succ, ih (i0 + 1)]

theorem fdisk_frags_eq : ∀ (ps : List Partition) (i0 : Nat),
    fdisk_frags ps i0 =
      str_concat ((ps.zip (List.range' i0 ps.length)).map
        (fun pn => fdisk_script_string pn.1 pn.2)) := by
  intro ps
  induction ps with
  | nil => intro i0; simp [fdisk_frags, str_concat]
  | cons p ps ih =>
    intro i0
    simp [fdisk_frags, str_concat, List.range'_succ, List.zip, ih (i0 + 1)]

/-! ## Sample configurations used by witnesses and counterexamples -/

/-- Two partitions on one SATA disk, GRUB bootloader (mirrors the sample
input file shipped with the program). -/
def sample_grub : InstallOptions :=
  { hostname := "archlinux", region := "Europe", city := "London",
    locales := ["en_US.UTF-8"], kernel := Kernel.Latest, extra := "vim",
    bootloader := "grub",
    partitions :=
      [{ format := "ext4", disk := "/dev/sda", size := "", mount := "/" },
       { format := "fat32", disk := "/dev/sda", size := "512M", mount := "/boot" }],
    users := [] }

/-- Nested mount points listed before the root partition: `/home`,
`/home/user`, then `/`. -/
def sample_nested : InstallOptions :=
  { hostname := "archlinux", region := "Europe", city := "London",
    locales := ["en_US.UTF-8"], kernel := Kernel.Latest, extra := "",
    bootloader := "grub",
    partitions :=
      [{ format := "ext4", disk := "/dev/sda", size := "10G", mount := "/home" },
       { format := "ext4", disk := "/dev/sda", size := "5G", mount := "/home/user" },
       { format := "ext4", disk := "/dev/sda", size := "", mount := "/" }],
    users := [] }

/-- EFI-stub configuration on an NVMe disk with the LTS kernel. -/
def sample_efistub_lts : InstallOptions :=
  { hostname := "archlinux", region := "Europe", city := "London",
    locales := ["en_US.UTF-8"], kernel := Kernel.Lts, extra := "vim",
    bootloader := "efistub",
    partitions :=
      [{ format := "fat32", disk := "/dev/nvme0n1", size := "512M", mount := "/boot" },
       { format := "ext4", disk := "/dev/nvme0n1", size := "", mount := "/" }],
    users := [] }

/-- EFI-stub configuration with TWO partitions mounted at `/boot`. -/
def sample_dup_boot : InstallOptions :=
  { hostname := "archlinux", region := "Europe", city := "London",
    locales := ["en_US.UTF-8"], kernel := Kernel.Latest, extra := "",
    bootloader := "efistub",
    partitions :=
      [{ format := "fat32", disk := "/dev/sda", size := "512M", mount := "/boot" },
       { format := "fat32", disk := "/dev/sda", size := "512M", mount := "/boot" },
       { format := "ext4", disk := "/dev/sda", size := "", mount := "/" }],
    users := [] }

/-- EFI-stub configuration whose free-form extra-package string is the
word `efistub` itself. -/
def sample_extra_efistub : InstallOptions :=
  { hostname := "archlinux", region := "Europe", city := "London",
    locales := ["en_US.UTF-8"], kernel := Kernel.Latest, extra := "efistub",
    bootloader := "efistub",
    partitions := [{ format := "ext4", disk := "/dev/sda", size := "", mount := "/" }],
    users := [] }

/-- EFI-stub configuration with a root partition but no boot partition. -/
def sample_efistub_noboot : InstallOptions :=
  { hostname := "archlinux", region := "Europe", city := "London",
    locales := ["en_US.UTF-8"], kernel := Kernel.Latest, extra := "",
    bootloader := "efistub",
    partitions := [{ format := "ext4", disk := "/dev/sda", size := "", mount := "/" }],
    users := [] }

/-- A partition on an NVMe disk. -/
def p_nvme : Partition := { format := "ext4", disk := "/dev/nvme0n1", size := "", mount := "/" }

/-- A partition on a SATA disk. -/
def p_sata : Partition := { format := "ext4", disk := "/dev/sda", size := "", mount := "/" }

/-- Raw partition whose mount point is a relative path. -/
def raw_rel_mount : ParsedPartition :=
  { format := some "ext4", disk := some "/dev/sda", size := some "1G", mount := some "boot" }

/-- Raw partition with no mount point at all. -/
def raw_no_mount : ParsedPartition :=
  { format := none, disk := some "/dev/sdb", size := none, mount := none }

/-- The boot pair resolved for `sample_efistub_lts`. -/
def c5bp : Partition × Option String :=
  ({ format := "fat32", disk := "/dev/nvme0n1", size := "512M", mount := "/boot" },
   some "/dev/nvme0n1p1")

/-- The root pair resolved for `sample_efistub_lts`. -/
def c5rp : Partition × Option String :=
  ({ format := "ext4", disk := "/dev/nvme0n1", size := "", mount := "/" },
   some "/dev/nvme0n1p2")

/-! ## Claim theorems -/

/-- C1: for every validated plan and every disk appearing in its partition
list, the resolved partition numbers of the partitions on that disk — the
numbers used in derived device paths, and the numbers used in the fdisk
command block — form the contiguous sequence 1, 2, ..., k, assigned in the
order those partitions appear in the original partition list.  The first
conjunct identifies the disk group of the resolved device pairs with the
group zipped against `[1, ..., k]`; the second exhibits the fdisk block for
the disk as the concatenation of fragments numbered `1, ..., k` in the same
order. -/
theorem c1_contiguous_numbers (o : InstallOptions) (d : String)
    (hd : d ∈ unique_disks_used o) :
    ((map_partitions o get_partition_file).filter (fun pr => pr.1.disk == d) =
      ((partitions_on_disk o d).zip
        (List.range' 1 (partitions_on_disk o d).length)).map
          (fun pn => (pn.1, some (dev_path pn.1.disk pn.2))))
    ∧ ("echo -e \"g\\n" ++
        str_concat (((partitions_on_disk o d).zip
          (List.range' 1 (partitions_on_disk o d).length)).map
            (fun pn => fdisk_script_string pn.1 pn.2)) ++
        "\\nw\" | fdisk " ++ d ++ " &>/dev/null") ∈ fdisk_cmds o := by
  constructor
  · rw [map_partitions_filter_disk o get_partition_file d hd,
      number_from_eq get_partition_file (partitions_on_disk o d) 0]
    exact zip_range_shift (fun p j => (p, some (dev_path p.disk j)))
      (partitions_on_disk o d) 0
  · rw [← fdisk_frags_eq]
    exact List.mem_map_of_mem
      (fun disk => "echo -e \"g\\n" ++ fdisk_frags (partitions_on_disk o disk) 1 ++
        "\\nw\" | fdisk " ++ disk ++ " &>/dev/null") hd

/-- C1 witness: `sample_grub` has its two partitions on `/dev/sda`,
resolved with numbers 1 and 2 in list order. -/
theorem c1_witness :
    "/dev/sda" ∈ unique_disks_used sample_grub ∧
    (((map_partitions sample_grub get_partition_file).filter
        (fun pr => pr.1.disk == "/dev/sda") =
      ((partitions_on_disk sample_grub "/dev/sda").zip
        (List.range' 1 (partitions_on_disk sample_grub "/dev/sda").length)).map
          (fun pn => (pn.1, some (dev_path pn.1.disk pn.2))))
    ∧ ("echo -e \"g\\n" ++
        str_concat (((partitions_on_disk sample_grub "/dev/sda").zip
          (List.range' 1 (partitions_on_disk sample_grub "/dev/sda").length)).map
            (fun pn => fdisk_script_string pn.1 pn.2)) ++
        "\\nw\" | fdisk " ++ "/dev/sda" ++ " &>/dev/null") ∈ fdisk_cmds sample_grub) :=
  ⟨by decide, c1_contiguous_numbers sample_grub "/dev/sda" (by decide)⟩

/-- C2: for every partition, if its disk path matches the
controller-namespace (NVMe) naming pattern then its resolved device path
is the disk path, then `p`, then the resolved (1-based) partition number;
for every other disk path it is the disk path directly followed by the
number.  Pattern membership is the declarative `NvmeShape`, proved
equivalent to the embedded regex matcher by `nvme_is_match_iff`. -/
theorem c2_device_path (p : Partition) (n : Nat) :
    (NvmeShape p.disk.data →
      get_partition_file p n = some (p.disk ++ "p" ++ Nat.repr (n + 1)))
    ∧ (¬ NvmeShape p.disk.data →
      get_partition_file p n = some (p.disk ++ Nat.repr (n + 1))) := by
  constructor
  · intro h
    have hm : nvme_is_match p.disk = true := (nvme_is_match_iff p.disk).mpr h
    unfold get_partition_file dev_path
    rw [if_pos hm]
  · intro h
    have hm : ¬ nvme_is_match p.disk = true := fun hmm =>
      absurd ((nvme_is_match_iff p.disk).mp hmm) h
    unfold get_partition_file dev_path
    rw [if_neg hm]

/-- C2 witness: `/dev/nvme0n1` takes the `p` separator, `/dev/sda` does
not. -/
theorem c2_witness :
    NvmeShape "/dev/nvme0n1".data ∧
    get_partition_file p_nvme 0 = some ("/dev/nvme0n1" ++ "p" ++ Nat.repr 1) ∧
    ¬ NvmeShape "/dev/sda".data ∧
    get_partition_file p_sata 0 = some ("/dev/sda" ++ Nat.repr 1) := by
  have hshape : NvmeShape "/dev/nvme0n1".data :=
    ⟨[], ['0'], '1', [], by decide, by decide, by decide, by decide⟩
  have hnot : ¬ NvmeShape "/dev/sda".data := fun h =>
    absurd ((nvme_is_match_iff "/dev/sda").mpr h) (by decide)
  exact ⟨hshape, (c2_device_path p_nvme 0).1 hshape, hnot,
    (c2_device_path p_sata 0).2 hnot⟩

/-- C10: `get_partition_file` returns `some` for every partition and every
number, so the `.unwrap()` calls on its result inside `mkfs_cmd` and
`mount_cmd` (and, by the same totality, in the efistub branch of
`install_bootloader`) can never panic: the panic-tracking versions always
return `.ok` of the pure versions. -/
theorem c10_no_panic (p : Partition) (number : Nat) :
    get_partition_file p number = some (dev_path p.disk (number + 1)) ∧
    mkfs_cmdE p number = .ok (mkfs_cmd p number) ∧
    mount_cmdE p number = .ok (mount_cmd p number) := by
  refine ⟨rfl, ?_, ?_⟩
  · unfold mkfs_cmdE mkfs_cmd
    by_cases h : mkfs_cmd_name p.format = ""
    · rw [if_pos h, if_pos h]
    · rw [if_neg h, if_neg h]
      rfl
  · unfold mount_cmdE mount_cmd
    by_cases h : p.format = "swap"
    · rw [if_pos h, if_pos h]
      rfl
    · rw [if_neg h, if_neg h]
      by_cases hm : p.mount = ""
      · rw [if_pos hm, if_pos hm]
      · rw [if_neg hm, if_neg hm]
        rfl

theorem mem_of_get? {α : Type} : ∀ {l : List α} {n : Nat} {a : α},
    l.get? n = some a → a ∈ l := by
  intro l
  induction l with
  | nil => intro n a h; cases h
  | cons x t ih =>
    intro n a h
    cases n with
    | zero => cases h; exact List.mem_cons_self _ _
    | succ m => exact List.mem_cons_of_mem _ (ih h)

/-- C3: for every validated plan whose flattened mount list has a
partition mounted at `/` (at first position `k`), the mount section is
assembled with that root partition's fragment first: the section is `.ok`
and its head is the root fragment, regardless of where the root partition
occurs in the input list. -/
theorem c3_root_mount_first (o : InstallOptions) (k : Nat)
    (hk : position_idx (fun pr => pr.1.mount == "/") (map_partitions o mount_cmd) = some k) :
    ∃ p f rest,
      (map_partitions o mount_cmd).get? k = some (p, some f) ∧
      p.mount = "/" ∧
      mount_sectionE o = .ok (f :: rest) := by
  obtain ⟨pr, hget, hpred⟩ := position_idx_spec _ _ _ hk
  have hmount : pr.1.mount = "/" := by simpa using hpred
  have hmem : pr ∈ map_partitions o mount_cmd := mem_of_get? hget
  obtain ⟨-, i, hi⟩ := mem_map_partitions hmem
  have hsome : ∃ f, pr.2 = some f := by
    rw [hi]
    unfold mount_cmd
    by_cases hf : pr.1.format = "swap"
    · rw [if_pos hf]; exact ⟨_, rfl⟩
    · rw [if_neg hf, if_neg (show ¬ pr.1.mount = "" by rw [hmount]; decide)]
      exact ⟨_, rfl⟩
  obtain ⟨f, hf2⟩ := hsome
  have hklen : k < (map_partitions o mount_cmd).length := get?_lt hget
  obtain ⟨a0, h0⟩ : ∃ a0, (map_partitions o mount_cmd).get? 0 = some a0 := by
    cases h0 : (map_partitions o mount_cmd).get? 0 with
    | some a0 => exact ⟨a0, rfl⟩
    | none =>
      rw [List.get?_eq_none] at h0
      omega
  have hswap := vec_swapE_ok h0 hget
  have hfront := swap_get_front h0 hget
  obtain ⟨t, ht⟩ : ∃ t,
      (((map_partitions o mount_cmd).set 0 pr).set k a0) = pr :: t := by
    cases hc : (((map_partitions o mount_cmd).set 0 pr).set k a0) with
    | nil => rw [hc] at hfront; cases hfront
    | cons x t =>
      rw [hc] at hfront
      simp only [List.get?] at hfront
      cases hfront
      exact ⟨t, rfl⟩
  refine ⟨pr.1, f, map_snd t, ?_, hmount, ?_⟩
  · rw [hget, ← hf2]
  · unfold mount_sectionE root_part_ind
    simp only [hk, Option.getD_some]
    rw [hswap, ht]
    have hpr : pr = (pr.1, some f) := by
      rw [← hf2]
    rw [hpr]
    simp only [map_snd_cons_some]

/-- C3 witness: in `sample_grub` the root partition is listed first, at
flattened index 0. -/
theorem c3_witness :
    position_idx (fun pr => pr.1.mount == "/") (map_partitions sample_grub mount_cmd) =
      some 0 ∧
    ∃ p f rest,
      (map_partitions sample_grub mount_cmd).get? 0 = some (p, some f) ∧
      p.mount = "/" ∧
      mount_sectionE sample_grub = .ok (f :: rest) := by
  have h : position_idx (fun pr => pr.1.mount == "/")
      (map_partitions sample_grub mount_cmd) = some 0 := by decide
  exact ⟨h, c3_root_mount_first sample_grub 0 h⟩

/-- C4: the root-first reordering is a single swap, not a stable move.
First conjunct: whenever the flattened mount list has its first root entry
at index `k > 0`, the swap succeeds and the entry originally at index 0
ends up at index `k` (and the emitted mount section is exactly the
`Some`-fragments of the swapped list).  Second conjunct: on the concrete
plan `sample_nested` (partitions `/home`, `/home/user`, `/` in that
order), the emitted mount section mounts `/home/user` (originally index 1)
before `/home` (swapped to index 2), i.e. a nested mount point's fragment
is emitted before its parent's. -/
theorem c4_swap_not_stable :
    (∀ (o : InstallOptions) (k : Nat),
      position_idx (fun pr => pr.1.mount == "/") (map_partitions o mount_cmd) = some k →
      0 < k →
      ∃ l, vec_swapE (map_partitions o mount_cmd) 0 k = .ok l ∧
        l.get? k = (map_partitions o mount_cmd).get? 0 ∧
        mount_sectionE o = .ok (map_snd l))
    ∧ mount_sectionE sample_nested = .ok
        ["mkdir -p /mnt/ && mount /dev/sda3 /mnt/",
         "mkdir -p /mnt/home/user && mount /dev/sda2 /mnt/home/user",
         "mkdir -p /mnt/home && mount /dev/sda1 /mnt/home"] := by
  constructor
  · intro o k hk _hpos
    obtain ⟨pr, hget, -⟩ := position_idx_spec _ _ _ hk
    have hklen : k < (map_partitions o mount_cmd).length := get?_lt hget
    obtain ⟨a0, h0⟩ : ∃ a0, (map_partitions o mount_cmd).get? 0 = some a0 := by
      cases h0 : (map_partitions o mount_cmd).get? 0 with
      | some a0 => exact ⟨a0, rfl⟩
      | none =>
        rw [List.get?_eq_none] at h0
        omega
    refine ⟨_, vec_swapE_ok h0 hget, ?_, ?_⟩
    · rw [swap_get_at h0 hget, h0]
    · unfold mount_sectionE root_part_ind
      simp only [hk, Option.getD_some]
      rw [vec_swapE_ok h0 hget]
  · rfl

/-- C4 witness: in `sample_nested` the root entry sits at flattened index
2 > 0, and the swap moves the original head there. -/
theorem c4_witness :
    position_idx (fun pr => pr.1.mount == "/") (map_partitions sample_nested mount_cmd) =
      some 2 ∧
    0 < 2 ∧
    ∃ l, vec_swapE (map_partitions sample_nested mount_cmd) 0 2 = .ok l ∧
      l.get? 2 = (map_partitions sample_nested mount_cmd).get? 0 ∧
      mount_sectionE sample_nested = .ok (map_snd l) := by
  have h : position_idx (fun pr => pr.1.mount == "/")
      (map_partitions sample_nested mount_cmd) = some 2 := by decide
  exact ⟨h, by decide, c4_swap_not_stable.1 sample_nested 2 h (by decide)⟩

/-- C5: with the efistub bootloader and both a boot partition (mounted at
`/boot` or `/efi`) and a root partition (mounted at `/`) located among the
resolved pairs, the single emitted boot-entry command embeds the boot
partition's disk, the trailing numeric index extracted from the boot
partition's resolved device path, a label suffixed `" LTS"` exactly when
the kernel is `Lts`, a kernel image path and initramfs image name suffixed
`-lts` exactly when the kernel is `Lts`, and the root partition's resolved
device path in the boot argument. -/
theorem c5_efistub_boot_entry (o : InstallOptions) (hb : o.bootloader = "efistub")
    (bp rp : Partition × Option String)
    (hfb : (map_partitions o get_partition_file).find?
        (fun pr => pr.1.mount == "/boot" || pr.1.mount == "/efi") = some bp)
    (hfr : (map_partitions o get_partition_file).find?
        (fun pr => pr.1.mount == "/") = some rp) :
    ∃ bfile rfile,
      bp.2 = some bfile ∧ rp.2 = some rfile ∧
      install_bootloader o =
        .ok [efiboot_cmd bp.1.disk (trailing_digits bfile)
          (if o.kernel = Kernel.Lts then " LTS" else "")
          (if o.kernel = Kernel.Lts then "-lts" else "")
          rfile
          (if o.kernel = Kernel.Lts then "-lts" else "")] := by
  obtain ⟨bfile, hbf⟩ := map_partitions_snd_some (List.mem_of_find?_eq_some hfb)
  obtain ⟨rfile, hrf⟩ := map_partitions_snd_some (List.mem_of_find?_eq_some hfr)
  refine ⟨bfile, rfile, hbf, hrf, ?_⟩
  unfold install_bootloader
  rw [if_neg (show ¬ o.bootloader = "grub" by rw [hb]; decide), if_pos hb]
  simp only [hfb, hfr, hbf, hrf]
  cases hko : o.kernel <;> rfl

/-- C5 witness: `sample_efistub_lts` resolves its boot pair to
`/dev/nvme0n1p1` and its root pair to `/dev/nvme0n1p2`, and the emitted
command carries the LTS suffixes. -/
theorem c5_witness :
    sample_efistub_lts.bootloader = "efistub" ∧
    (map_partitions sample_efistub_lts get_partition_file).find?
        (fun pr => pr.1.mount == "/boot" || pr.1.mount == "/efi") = some c5bp ∧
    (map_partitions sample_efistub_lts get_partition_file).find?
        (fun pr => pr.1.mount == "/") = some c5rp ∧
    ∃ bfile rfile,
      c5bp.2 = some bfile ∧ c5rp.2 = some rfile ∧
      install_bootloader sample_efistub_lts =
        .ok [efiboot_cmd c5bp.1.disk (trailing_digits bfile)
          (if sample_efistub_lts.kernel = Kernel.Lts then " LTS" else "")
          (if sample_efistub_lts.kernel = Kernel.Lts then "-lts" else "")
          rfile
          (if sample_efistub_lts.kernel = Kernel.Lts then "-lts" else "")] := by
  refine ⟨rfl, by decide, by decide, ?_⟩
  exact c5_efistub_boot_entry sample_efistub_lts rfl c5bp c5rp (by decide) (by decide)

/-- C6 counterexample: an efistub plan with TWO partitions mounted at
`/boot` (and one at `/`) — generation does not abort, it succeeds using
the first boot partition, so "exactly one" is not required by the code. -/
theorem c6_counterexample :
    sample_dup_boot.bootloader = "efistub" ∧
    (sample_dup_boot.partitions.filter
      (fun p => p.mount == "/boot" || p.mount == "/efi")).length = 2 ∧
    ∃ cmds, install_bootloader sample_dup_boot = .ok cmds :=
  ⟨rfl, by decide, ⟨_, rfl⟩⟩

/-- C6 (amended): when the validated bootloader is `efistub`, generation
requires at least one partition mounted at `/boot` or `/efi` and at least
one mounted at `/` (the first such, in resolved order, is used); if either
is absent, generation aborts with a fatal error and no script is
emitted. -/
theorem c6_efistub_requires_boot_and_root (o : InstallOptions)
    (hb : o.bootloader = "efistub") :
    ((∀ p ∈ o.partitions, p.mount ≠ "/boot" ∧ p.mount ≠ "/efi") →
      install_bootloader o = .error "using efistub, but no boot partition was detected" ∧
      ∃ e, generate_shellscriptE o = .error e)
    ∧ ((∀ p ∈ o.partitions, p.mount ≠ "/") →
      (∃ e, install_bootloader o = .error e) ∧
      ∃ e, generate_shellscriptE o = .error e)
    ∧ ((∃ p ∈ o.partitions, p.mount = "/boot" ∨ p.mount = "/efi") →
      (∃ p ∈ o.partitions, p.mount = "/") →
      ∃ cmds, install_bootloader o = .ok cmds) := by
  refine ⟨?_, ?_, ?_⟩
  · intro hnone
    have hfind : (map_partitions o get_partition_file).find?
        (fun pr => pr.1.mount == "/boot" || pr.1.mount == "/efi") = none := by
      rw [List.find?_eq_none]
      intro pr hpr
      have hp := (mem_map_partitions hpr).1
      obtain ⟨h1, h2⟩ := hnone pr.1 hp
      simp [h1, h2]
    have hib : install_bootloader o =
        .error "using efistub, but no boot partition was detected" := by
      unfold install_bootloader
      rw [if_neg (show ¬ o.bootloader = "grub" by rw [hb]; decide), if_pos hb]
      simp only [hfind]
    exact ⟨hib, generate_error_of_bootloader_error hib⟩
  · intro hnone
    have hfindr : (map_partitions o get_partition_file).find?
        (fun pr => pr.1.mount == "/") = none := by
      rw [List.find?_eq_none]
      intro pr hpr
      have hp := (mem_map_partitions hpr).1
      simp [hnone pr.1 hp]
    have hib : ∃ e, install_bootloader o = .error e := by
      unfold install_bootloader
      rw [if_neg (show ¬ o.bootloader = "grub" by rw [hb]; decide), if_pos hb]
      cases hfb : (map_partitions o get_partition_file).find?
          (fun pr => pr.1.mount == "/boot" || pr.1.mount == "/efi") with
      | none => simp only [hfb]; exact ⟨_, rfl⟩
      | some bp => simp only [hfb, hfindr]; exact ⟨_, rfl⟩
    obtain ⟨e, he⟩ := hib
    exact ⟨⟨e, he⟩, generate_error_of_bootloader_error he⟩
  · intro hboot hroot
    obtain ⟨p, hp, hm⟩ := hboot
    obtain ⟨q, hq, hqm⟩ := hroot
    obtain ⟨i, hpair⟩ := @map_partitions_mem_intro o get_partition_file p hp
    obtain ⟨j, hqair⟩ := @map_partitions_mem_intro o get_partition_file q hq
    obtain ⟨bp, hfb⟩ : ∃ bp, (map_partitions o get_partition_file).find?
        (fun pr => pr.1.mount == "/boot" || pr.1.mount == "/efi") = some bp := by
      apply find?_some_of_exists
      refine ⟨(p, get_partition_file p i), hpair, ?_⟩
      rcases hm with h | h <;> simp [h]
    obtain ⟨rp, hfr⟩ : ∃ rp, (map_partitions o get_partition_file).find?
        (fun pr => pr.1.mount == "/") = some rp := by
      apply find?_some_of_exists
      refine ⟨(q, get_partition_file q j), hqair, ?_⟩
      simp [hqm]
    obtain ⟨bfile, hbf⟩ := map_partitions_snd_some (List.mem_of_find?_eq_some hfb)
    obtain ⟨rfile, hrf⟩ := map_partitions_snd_some (List.mem_of_find?_eq_some hfr)
    have hok : install_bootloader o =
        .ok [efiboot_cmd bp.1.disk (trailing_digits bfile)
          (if lts_str o.kernel = "-lts" then " LTS" else "")
          (lts_str o.kernel) rfile (lts_str o.kernel)] := by
      unfold install_bootloader
      rw [if_neg (show ¬ o.bootloader = "grub" by rw [hb]; decide), if_pos hb]
      simp only [hfb, hfr, hbf, hrf]
    exact ⟨_, hok⟩

/-- C6 witness: an efistub plan with no boot partition aborts with the
boot-partition error and emits no script. -/
theorem c6_witness :
    (∀ p ∈ sample_efistub_noboot.partitions, p.mount ≠ "/boot" ∧ p.mount ≠ "/efi") ∧
    (install_bootloader sample_efistub_noboot =
        .error "using efistub, but no boot partition was detected" ∧
      ∃ e, generate_shellscriptE sample_efistub_noboot = .error e) :=
  ⟨by decide, (c6_efistub_requires_boot_and_root sample_efistub_noboot rfl).1 (by decide)⟩

/-- C7 counterexample: with `extra = "efistub"` and the efistub
bootloader, the literal string `"efistub"` IS in the package list (through
the free-form extra slot), so the claim as universally stated fails. -/
theorem c7_counterexample :
    sample_extra_efistub.bootloader = "efistub" ∧
    "efistub" ∈ packages sample_extra_efistub :=
  ⟨rfl, by decide⟩

/-- C7 (amended): the package list includes the literal `"grub"` whenever
the bootloader is `"grub"`; when the bootloader is `"efistub"` the
bootloader slot contributes the empty string instead of the name, so
`"efistub"` is absent unless it also occurs as the free-form extra-package
string. -/
theorem c7_packages_bootloader (o : InstallOptions) :
    (o.bootloader = "grub" → "grub" ∈ packages o)
    ∧ (o.bootloader = "efistub" → o.extra ≠ "efistub" → "efistub" ∉ packages o) := by
  constructor
  · intro h
    unfold packages
    rw [if_pos (show o.bootloader ≠ "efistub" by rw [h]; decide), h]
    simp
  · intro hb hex hmem
    unfold packages at hmem
    rw [if_neg (show ¬ o.bootloader ≠ "efistub" from fun hne => hne hb)] at hmem
    simp only [List.mem_cons, List.not_mem_nil, or_false] at hmem
    rcases hmem with h | h | h | h | h | h | h
    · exact absurd h (by decide)
    · cases hko : o.kernel <;> rw [hko] at h <;> exact absurd h (by decide)
    · exact absurd h (by decide)
    · exact hex h.symm
    · exact absurd h (by decide)
    · exact absurd h (by decide)
    · exact absurd h (by decide)

/-- C7 witness: concrete instances of both directions of the amended
claim. -/
theorem c7_witness :
    (sample_grub.bootloader = "grub" ∧ "grub" ∈ packages sample_grub) ∧
    (sample_efistub_lts.bootloader = "efistub" ∧ sample_efistub_lts.extra ≠ "efistub" ∧
      "efistub" ∉ packages sample_efistub_lts) :=
  ⟨⟨rfl, (c7_packages_bootloader sample_grub).1 rfl⟩,
   ⟨rfl, by decide, (c7_packages_bootloader sample_efistub_lts).2 rfl (by decide)⟩⟩

/-- C8: a raw partition whose mount field is present, non-empty and not
starting with `/` makes validation abort with the fatal relative-path
error (never a mere warning); an absent or empty mount field only produces
the mount warning, and the converted partition has an empty mount point
(it is simply not mounted). -/
theorem c8_mount_validation (raw : ParsedPartition) :
    (∀ m, raw.mount = some m → m ≠ "" → str_starts_with m "/" = false →
      partition_fromE raw = .error ("mount point is a relative path: \"" ++ m ++ "\""))
    ∧ ((raw.mount = none ∨ raw.mount = some "") →
      ∀ d, raw.disk = some d →
        ∃ fmt ws, partition_fromE raw =
          .ok ({ format := fmt, disk := d, size := raw.size.getD "", mount := "" }, ws) ∧
          mount_warn_msg ∈ ws) := by
  constructor
  · intro m hm hne hsw
    unfold partition_fromE
    rw [hm]
    simp only [if_neg hne,
      if_neg (show ¬ str_starts_with m "/" = true by rw [hsw]; decide)]
  · intro habs d hd
    rcases habs with hm | hm <;>
      · unfold partition_fromE
        rw [hm, hd]
        refine ⟨(format_from raw.format).1,
          (format_from raw.format).2 ++ [mount_warn_msg], ?_, ?_⟩
        · rfl
        · simp

/-- C8 witness: `mount: "boot"` is fatal; an absent mount only warns and
yields an unmounted partition. -/
theorem c8_witness :
    (raw_rel_mount.mount = some "boot" ∧ str_starts_with "boot" "/" = false ∧
      partition_fromE raw_rel_mount =
        .error ("mount point is a relative path: \"" ++ "boot" ++ "\"")) ∧
    (raw_no_mount.mount = none ∧ raw_no_mount.disk = some "/dev/sdb" ∧
      ∃ fmt ws, partition_fromE raw_no_mount =
        .ok ({ format := fmt, disk := "/dev/sdb",
               size := raw_no_mount.size.getD "", mount := "" }, ws) ∧
        mount_warn_msg ∈ ws) :=
  ⟨⟨rfl, by decide,
    (c8_mount_validation raw_rel_mount).1 "boot" rfl (by decide) (by decide)⟩,
   ⟨rfl, rfl,
    (c8_mount_validation raw_no_mount).2 (Or.inl rfl) "/dev/sdb" rfl⟩⟩

/-- C9: an absent or empty raw locales list validates to exactly the
single canonical default locale together with a warning; a non-empty list
is kept unchanged; and in both cases the first element of the validated
list is the one written as `LANG=` (the default system language) by the
locale commands of the chroot script. -/
theorem c9_locales (raw : Option (List String)) :
    ((raw = none ∨ raw = some []) →
      locales_from raw = (["en_US.UTF-8"], [locales_warn_msg]))
    ∧ (∀ x xs, raw = some (x :: xs) → locales_from raw = (x :: xs, []))
    ∧ (∀ o : InstallOptions, o.locales = (locales_from raw).1 →
      ∃ first rest sedCmd,
        (locales_from raw).1 = first :: rest ∧
        locales_cmd o = .ok [sedCmd,
          "echo \x27LANG=" ++ first ++ "\x27 >/etc/locale.conf"]) := by
  refine ⟨?_, ?_, ?_⟩
  · rintro (rfl | rfl) <;> rfl
  · intro x xs h
    rw [h]
    rfl
  · intro o ho
    obtain ⟨first, rest, hfr⟩ : ∃ f r, (locales_from raw).1 = f :: r := by
      rcases raw with - | l
      · exact ⟨_, _, rfl⟩
      · rcases l with - | ⟨x, xs⟩
        · exact ⟨_, _, rfl⟩
        · exact ⟨_, _, rfl⟩
    refine ⟨first, rest,
      String.intercalate "\\\n" (["sed "] ++
        o.locales.map (fun l => "    --expression \x27s/^#" ++ l ++ "$/" ++ l ++ "/\x27 ") ++
        ["    --in-place /etc/locale.gen"]), hfr, ?_⟩
    unfold locales_cmd
    rw [ho, hfr]

/-- C9 witness: the absent-locales case defaults to `en_US.UTF-8`, and a
plan carrying that list writes it as the `LANG=` value. -/
theorem c9_witness :
    locales_from none = (["en_US.UTF-8"], [locales_warn_msg]) ∧
    (∃ first rest sedCmd,
      (locales_from none).1 = first :: rest ∧
      locales_cmd sample_grub = .ok [sedCmd,
        "echo \x27LANG=" ++ first ++ "\x27 >/etc/locale.conf"]) :=
  ⟨(c9_locales none).1 (Or.inl rfl),
   (c9_locales none).2.2 sample_grub rfl⟩

end Jimmy
